import Mathlib

/-!
Shallow embedding of the AI-Interviewer orchestration core
(repository `AdityaRaorane22/Sunrisers`, file `src/app.py`, class
`AIInterviewerApp`), together with a model of the external
`InterviewerAgent` collaborator (file `models.py`, which is not part of
the sources handed to us) built from the specification.

Scores are embedded as rationals (`ℚ`); Python dictionaries become
structures; the mutable `self` of `AIInterviewerApp` becomes explicit
state passing; Python exceptions become `Except` results and the
Python convention of returning `(False, msg)` becomes an explicit
outcome type.
-/

namespace Sunrisers

/-- Question kind: Technical | Behavioral (spec §3). -/
inductive QKind where
  | technical
  | behavioral
deriving DecidableEq

/-- Sentiment label + score attached to behavioral responses (spec §3). -/
structure Sentiment where
  label : String
  score : ℚ
deriving DecidableEq

/-- A question from the question bank: id, text, category tag, kind (spec §3). -/
structure Question where
  id : Nat
  text : String
  category : String
  kind : QKind
deriving DecidableEq

/-- A recorded response, as the dictionaries consumed by `app.py`
(`resp["question"]`, `resp["response"]`, `resp["score"]`,
`resp["feedback"]`, `resp["sentiment"]`), plus the category of the
answered question, which the aggregator needs (spec §4.3). -/
structure Response where
  question : String
  category : String
  response : String
  score : ℚ
  feedback : String
  sentiment : Option Sentiment
deriving DecidableEq

/-- What the external Response Evaluator returns for one question/response
pair (spec §6): a score in [0,1], feedback, and an optional sentiment. -/
structure EvalOutcome where
  score : ℚ
  feedback : String
  sentiment : Option Sentiment

/-- The aggregated assessment record (spec §3), with `category_scores`
kept as an association list in first-appearance order. -/
structure Assessment where
  overall_technical_score : ℚ
  overall_behavioral_score : ℚ
  overall_score : ℚ
  category_scores : List (String × ℚ)
  recommendation : String
deriving DecidableEq

/-- The record returned by `InterviewerAgent.get_candidate_assessment`,
as destructured by `AIInterviewerApp._update_candidate_assessment`
(`assessment["assessment"]`, `assessment["technical_responses"]`,
`assessment["behavioral_responses"]`). -/
structure AssessmentBundle where
  assessment : Assessment
  technical_responses : List Response
  behavioral_responses : List Response
deriving DecidableEq

/-- The typed error kinds of spec §7. -/
inductive InterviewError where
  | EmptySelectionError
  | NoActiveCandidateError
  | NoSessionInProgressError
  | EmptyResponseError
  | EvaluatorFailure
deriving DecidableEq

/-- Session lifecycle states (spec §4.2). -/
inductive SessionStatus where
  | notStarted
  | inProgress
  | completed
deriving DecidableEq

/-- The record returned by a successful `process_response` on the agent:
`result["response"]`, `result["next_question"]`,
`result["remaining_questions"]` as read by `app.py`. -/
structure AgentResult where
  response : Response
  next_question : Option Question
  remaining_questions : Nat
deriving DecidableEq

/-- Modelled from the spec: the arithmetic mean used by the Assessment
Aggregator (§4.3); the empty mean is `0`. The aggregator lives in
`models.py`, which is not among the given sources. -/
def mean (l : List ℚ) : ℚ :=
  if l.length = 0 then 0 else l.sum / l.length

/-- Modelled from the spec: `category_scores[c] = mean(score of all
Responses whose question.category == c)` (§4.3), with categories listed
in first-appearance order. -/
def categoryScores (rs : List Response) : List (String × ℚ) :=
  ((rs.map (fun r => r.category)).dedup).map
    (fun c => (c, mean ((rs.filter (fun r => r.category == c)).map (fun r => r.score))))

/-- Modelled from the spec: the 4-bucket recommendation mapping from
`overall_score` (§4.3): `< 0.5 → "Not Recommended"`, `[0.5, 0.65) →
"Consider"`, `[0.65, 0.8) → "Recommended"`, `≥ 0.8 → "Strongly
Recommended"`. The implementation is in `models.py`, not among the
given sources. -/
def recommendationFor (s : ℚ) : String :=
  if s < 1/2 then "Not Recommended"
  else if s < 13/20 then "Consider"
  else if s < 4/5 then "Recommended"
  else "Strongly Recommended"

/-- Modelled from the spec: the Assessment Aggregator (§4.3). Overall
technical/behavioral scores are means (0 when that kind was not asked);
`overall_score` is the 0.5/0.5 weighted average when both kinds were
asked and otherwise whichever single score is present. -/
def aggregate (tech beh : List Response) : Assessment :=
  let t := mean (tech.map (fun r => r.score))
  let b := mean (beh.map (fun r => r.score))
  let overall :=
    if !tech.isEmpty && !beh.isEmpty then (t + b) / 2
    else if !tech.isEmpty then t
    else b
  { overall_technical_score := t
    overall_behavioral_score := b
    overall_score := overall
    category_scores := categoryScores (tech ++ beh)
    recommendation := recommendationFor overall }

/-- Modelled from the spec: the `InterviewerAgent` of `models.py` (not
among the given sources): its question pools, the injected external
evaluator, and its per-session state (spec §4.1–§4.2). -/
structure InterviewerAgent where
  evaluate : Question → String → EvalOutcome
  technical_pool : List Question
  behavioral_pool : List Question
  candidate_id : Option String
  technical_focus : Bool
  behavioral_focus : Bool
  queue : List Question
  technical_responses : List Response
  behavioral_responses : List Response
  status : SessionStatus

/-- Modelled from the spec: `InterviewerAgent.start_interview` (§4.2):
select questions by focus flags (`EmptySelectionError` when both flags
are false, §4.1/§7), install the fresh queue, transition to
`InProgress`, and return the first question. -/
def InterviewerAgent.start (ag : InterviewerAgent) (cid : String)
    (technical_focus behavioral_focus : Bool) :
    InterviewerAgent × Except InterviewError (Option Question) :=
  if !technical_focus && !behavioral_focus then
    (ag, .error .EmptySelectionError)
  else
    let qs := (if technical_focus then ag.technical_pool else []) ++
              (if behavioral_focus then ag.behavioral_pool else [])
    ({ ag with
        candidate_id := some cid
        technical_focus := technical_focus
        behavioral_focus := behavioral_focus
        queue := qs
        technical_responses := []
        behavioral_responses := []
        status := .inProgress },
     .ok qs.head?)

/-- Modelled from the spec: `InterviewerAgent.process_response` (§4.2).
Fails with `NoSessionInProgressError` outside `InProgress`; rejects
empty response text with `EmptyResponseError` before the evaluator is
invoked and before any state change; otherwise evaluates the current
question, appends the Response to the matching kind list, pops the
queue, and completes the session when the queue empties. The returned
agent carries the mutations performed before a raise (none, on the
error paths). -/
def InterviewerAgent.process (ag : InterviewerAgent) (text : String) :
    InterviewerAgent × Except InterviewError AgentResult :=
  if ag.status ≠ .inProgress then
    (ag, .error .NoSessionInProgressError)
  else if text = "" then
    (ag, .error .EmptyResponseError)
  else
    match ag.queue with
    | [] => (ag, .error .NoSessionInProgressError)
    | q :: rest =>
      let ev := ag.evaluate q text
      let r : Response :=
        { question := q.text
          category := q.category
          response := text
          score := ev.score
          feedback := ev.feedback
          sentiment := if q.kind = .behavioral then ev.sentiment else none }
      let ag' := { ag with
        queue := rest
        technical_responses :=
          if q.kind = .technical then ag.technical_responses ++ [r]
          else ag.technical_responses
        behavioral_responses :=
          if q.kind = .behavioral then ag.behavioral_responses ++ [r]
          else ag.behavioral_responses
        status := if rest.isEmpty then .completed else .inProgress }
      (ag', .ok { response := r
                  next_question := rest.head?
                  remaining_questions := rest.length })

/-- Modelled from the spec: `InterviewerAgent.get_candidate_assessment`
runs the Assessment Aggregator (§4.3) over the recorded responses and
returns the bundle `app.py` destructures. -/
def InterviewerAgent.get_candidate_assessment (ag : InterviewerAgent) :
    AssessmentBundle :=
  { assessment := aggregate ag.technical_responses ag.behavioral_responses
    technical_responses := ag.technical_responses
    behavioral_responses := ag.behavioral_responses }

/-- A candidate record as stored in `self.candidates` by `app.py`:
identity fields, `status` ("Pending" / "Interviewed"), the optional
assessment, and the `interview_data` pair written at completion. -/
structure Candidate where
  id : String
  name : String
  email : String
  position : String
  experience : Nat
  interview_date : String
  status : String
  assessment : Option Assessment
  interview_data : Option (List Response × List Response)
deriving DecidableEq

/-- The externally supplied fields of a new candidate (the
`candidate_info` dictionary passed to `add_candidate`). -/
structure CandidateInfo where
  name : String
  email : String
  position : String
  experience : Nat
deriving DecidableEq

/-- Decimal digit characters of a natural number, embedding Python's
decimal formatting inside `f"C{len(self.candidates) + 1}"`
(`app.py` line 41). -/
def natDecChars (n : Nat) : List Char :=
  if n < 10 then [Nat.digitChar n]
  else natDecChars (n / 10) ++ [Nat.digitChar (n % 10)]
  decreasing_by
    exact Nat.div_lt_self (by omega) (by norm_num)

/-- The candidate id string `f"C{k}"` assigned by `add_candidate`. -/
def candidateId (k : Nat) : String :=
  ⟨'C' :: natDecChars k⟩

/-- The mutable state of `AIInterviewerApp` (`app.py` lines 18–22):
the interviewer agent, the candidate list, the single shared
`current_candidate` slot, and the `interview_in_progress` flag. -/
structure AIInterviewerApp where
  interviewer : InterviewerAgent
  candidates : List Candidate
  current_candidate : Option Candidate
  interview_in_progress : Bool

/-- `AIInterviewerApp.add_candidate` (`app.py` lines 39–49): assign the
id `f"C{len(self.candidates) + 1}"`, stamp the interview date (the
caller's clock, passed explicitly here), set status "Pending" and no
assessment, append, and return the id. -/
def AIInterviewerApp.add_candidate (s : AIInterviewerApp)
    (info : CandidateInfo) (date : String) : String × AIInterviewerApp :=
  let cid := candidateId (s.candidates.length + 1)
  let c : Candidate :=
    { id := cid
      name := info.name
      email := info.email
      position := info.position
      experience := info.experience
      interview_date := date
      status := "Pending"
      assessment := none
      interview_data := none }
  (cid, { s with candidates := s.candidates ++ [c] })

/-- Outcome of `AIInterviewerApp.start_interview`: Python returns
`(False, msg)` or `(True, next_question)`. -/
inductive StartOutcome where
  | failure (msg : String)
  | success (q : Option Question)
deriving DecidableEq

/-- `AIInterviewerApp.start_interview` (`app.py` lines 51–72): look the
candidate up by id (returning `(False, "Candidate not found")` when
absent); otherwise set `current_candidate` and `interview_in_progress`,
compute `technical_focus` from the position and `behavioral_focus =
True`, and start the agent. An agent exception propagates after those
assignments, as in Python. -/
def AIInterviewerApp.start_interview (s : AIInterviewerApp) (cid : String) :
    AIInterviewerApp × Except InterviewError StartOutcome :=
  match s.candidates.find? (fun c => c.id == cid) with
  | none => (s, .ok (.failure "Candidate not found"))
  | some c =>
    let s1 := { s with current_candidate := some c, interview_in_progress := true }
    let tf := decide (c.position ∈
      ["Software Engineer", "Data Scientist", "DevOps Engineer"])
    match s1.interviewer.start cid tf true with
    | (ag', .error e) => ({ s1 with interviewer := ag' }, .error e)
    | (ag', .ok q) => ({ s1 with interviewer := ag' }, .ok (.success q))

/-- The in-place update loop of `_update_candidate_assessment`
(`app.py` lines 93–101): find the first candidate with the given id,
set its status to "Interviewed", attach the assessment and the
interview data, and stop (`break`). -/
def updateFirst (l : List Candidate) (cid : String) (b : AssessmentBundle) :
    List Candidate :=
  match l with
  | [] => []
  | c :: rest =>
    if c.id == cid then
      { c with
          status := "Interviewed"
          assessment := some b.assessment
          interview_data := some (b.technical_responses, b.behavioral_responses) } :: rest
    else c :: updateFirst rest cid b

/-- `AIInterviewerApp._update_candidate_assessment` (`app.py` lines
88–103): pull the assessment bundle from the agent and write it into
the first candidate record matching `current_candidate`'s id. -/
def AIInterviewerApp.update_candidate_assessment (s : AIInterviewerApp) :
    AIInterviewerApp :=
  match s.current_candidate with
  | none => s
  | some cur =>
    { s with candidates :=
        updateFirst s.candidates cur.id s.interviewer.get_candidate_assessment }

/-- Outcome of `AIInterviewerApp.process_response`: Python returns
`(False, msg)` or `(True, result)`. -/
inductive ProcOutcome where
  | failure (msg : String)
  | success (r : AgentResult)
deriving DecidableEq

/-- `AIInterviewerApp.process_response` (`app.py` lines 74–86): return
`(False, "No interview in progress")` when no interview is in progress;
otherwise forward to the agent (an agent exception propagates), and
when the result carries no next question clear the flag and run
`_update_candidate_assessment`. -/
def AIInterviewerApp.process_response (s : AIInterviewerApp) (text : String) :
    AIInterviewerApp × Except InterviewError ProcOutcome :=
  if !s.interview_in_progress then
    (s, .ok (.failure "No interview in progress"))
  else
    match s.interviewer.process text with
    | (ag', .error e) => ({ s with interviewer := ag' }, .error e)
    | (ag', .ok result) =>
      let s1 := { s with interviewer := ag' }
      if result.next_question.isNone then
        let s2 := { s1 with interview_in_progress := false }
        (s2.update_candidate_assessment, .ok (.success result))
      else
        (s1, .ok (.success result))

/-- The sort key of `get_candidate_rankings`:
`x["assessment"]["overall_score"]` (0 for the unassessed, which are
filtered out before sorting). -/
def rankScore (c : Candidate) : ℚ :=
  match c.assessment with
  | some a => a.overall_score
  | none => 0

/-- Stable descending insertion embedding Python's stable
`sorted(..., key=..., reverse=True)`: `x` moves past exactly the
elements with strictly greater key, so it lands after every
earlier-listed element of equal key. -/
def insertDesc (x : Candidate) : List Candidate → List Candidate
  | [] => [x]
  | y :: ys => if rankScore x < rankScore y then y :: insertDesc x ys
               else x :: y :: ys

/-- Stable descending sort by `rankScore`, embedding Python's `sorted`
(documented stable) with `reverse=True`. -/
def sortByScoreDesc : List Candidate → List Candidate
  | [] => []
  | x :: xs => insertDesc x (sortByScoreDesc xs)

/-- `AIInterviewerApp.get_candidate_rankings` (`app.py` lines 105–120):
keep the candidates whose assessment is present, sort them by
`overall_score` descending with a stable sort. (The Python early
return of `[]` for an empty filter coincides with sorting nothing.) -/
def AIInterviewerApp.get_candidate_rankings (s : AIInterviewerApp) :
    List Candidate :=
  sortByScoreDesc (s.candidates.filter (fun c => c.assessment.isSome))

/-- `AIInterviewerApp.get_candidate_details` (`app.py` lines 122–125). -/
def AIInterviewerApp.get_candidate_details (s : AIInterviewerApp)
    (cid : String) : Option Candidate :=
  s.candidates.find? (fun c => c.id == cid)

/-- Boolean test that a candidate's sort key equals `q`; used to state
the stability of the ranking sort. -/
def scoreIs (q : ℚ) (c : Candidate) : Bool :=
  rankScore c == q

/-- A sequence of `add_candidate` calls, returning the assigned ids in
call order together with the final state. -/
def addCandidates : AIInterviewerApp → List (CandidateInfo × String) →
    List String × AIInterviewerApp
  | s, [] => ([], s)
  | s, (info, date) :: rest =>
    let p := s.add_candidate info date
    let q := addCandidates p.2 rest
    (p.1 :: q.1, q.2)

/-! ### Concrete fixtures used by witness and counterexample theorems -/

/-- A concrete external evaluator: constant score 0.7 with fixed
feedback and sentiment. -/
def sampleEvaluator : Question → String → EvalOutcome :=
  fun _ _ =>
    { score := 7/10
      feedback := "ok"
      sentiment := some { label := "POSITIVE", score := 9/10 } }

/-- A concrete technical question. -/
def qTech1 : Question :=
  { id := 1, text := "Explain Big O notation", category := "algorithms",
    kind := .technical }

/-- A concrete behavioral question. -/
def qBeh1 : Question :=
  { id := 2, text := "Tell me about a challenging situation",
    category := "teamwork", kind := .behavioral }

/-- A concrete pending candidate with a technical position. -/
def candA : Candidate :=
  { id := "C1", name := "Asha", email := "asha@example.com",
    position := "Software Engineer", experience := 3,
    interview_date := "2026-10-01", status := "Pending",
    assessment := none, interview_data := none }

/-- A concrete pending candidate with a non-technical position. -/
def candB : Candidate :=
  { id := "C2", name := "Bela", email := "bela@example.com",
    position := "Product Manager", experience := 5,
    interview_date := "2026-10-02", status := "Pending",
    assessment := none, interview_data := none }

/-- An agent with loaded pools and no session started. -/
def idleAgent : InterviewerAgent :=
  { evaluate := sampleEvaluator
    technical_pool := [qTech1]
    behavioral_pool := [qBeh1]
    candidate_id := none
    technical_focus := false
    behavioral_focus := false
    queue := []
    technical_responses := []
    behavioral_responses := []
    status := .notStarted }

/-- An agent mid-interview for candidate "C1" with one question left. -/
def busyAgent : InterviewerAgent :=
  { idleAgent with
      candidate_id := some "C1"
      technical_focus := true
      behavioral_focus := true
      queue := [qBeh1]
      status := .inProgress }

/-- App state with two candidates and no interview in progress. -/
def idleApp : AIInterviewerApp :=
  { interviewer := idleAgent
    candidates := [candA, candB]
    current_candidate := none
    interview_in_progress := false }

/-- App state mid-interview for `candA` with one question remaining. -/
def busyApp : AIInterviewerApp :=
  { interviewer := busyAgent
    candidates := [candA, candB]
    current_candidate := some candA
    interview_in_progress := true }

/-- A concrete high-scoring assessment (whole-number scores keep the
fixtures kernel-computable). -/
def assessHigh : Assessment :=
  { overall_technical_score := 1
    overall_behavioral_score := 1
    overall_score := 1
    category_scores := [("algorithms", 1)]
    recommendation := "Strongly Recommended" }

/-- A concrete low-scoring assessment. -/
def assessLow : Assessment :=
  { overall_technical_score := 0
    overall_behavioral_score := 0
    overall_score := 0
    category_scores := []
    recommendation := "Not Recommended" }

/-- An interviewed candidate with overall score 1. -/
def candX : Candidate :=
  { id := "C3", name := "Xin", email := "xin@example.com",
    position := "Data Scientist", experience := 4,
    interview_date := "2026-09-01", status := "Interviewed",
    assessment := some assessHigh, interview_data := none }

/-- An interviewed candidate with overall score 0. -/
def candY : Candidate :=
  { id := "C4", name := "Yara", email := "yara@example.com",
    position := "Other", experience := 2,
    interview_date := "2026-09-02", status := "Interviewed",
    assessment := some assessLow, interview_data := none }

/-- A second interviewed candidate with overall score 1, tying `candX`. -/
def candZ : Candidate :=
  { candX with id := "C5", name := "Zoe" }

/-- App state mixing assessed and unassessed candidates, with a score
tie between `candX` and `candZ` (listed in that input order). -/
def rankedApp : AIInterviewerApp :=
  { interviewer := idleAgent
    candidates := [candY, candX, candA, candZ]
    current_candidate := none
    interview_in_progress := false }

/-- Concrete candidate info for `add_candidate` witnesses. -/
def infoP : CandidateInfo :=
  { name := "Pia", email := "pia@example.com", position := "Other",
    experience := 1 }

/-- A second concrete candidate info for `add_candidate` witnesses. -/
def infoQ : CandidateInfo :=
  { name := "Quin", email := "quin@example.com", position := "Other",
    experience := 2 }

/-! ### Lemmas about the stable descending sort -/

theorem insertDesc_perm (x : Candidate) (l : List Candidate) :
    List.Perm (insertDesc x l) (x :: l) := by
  induction l with
  | nil => rfl
  | cons y ys ih =>
    by_cases h : rankScore x < rankScore y
    · simp only [insertDesc, if_pos h]
      exact (ih.cons y).trans (List.Perm.swap x y ys)
    · simp only [insertDesc, if_neg h]
      exact List.Perm.refl _

theorem sortByScoreDesc_perm (l : List Candidate) :
    List.Perm (sortByScoreDesc l) l := by
  induction l with
  | nil => rfl
  | cons x xs ih =>
    exact ((insertDesc_perm x (sortByScoreDesc xs)).trans (ih.cons x))

theorem insertDesc_sorted (x : Candidate) (l : List Candidate)
    (hl : l.Pairwise (fun a b => rankScore b ≤ rankScore a)) :
    (insertDesc x l).Pairwise (fun a b => rankScore b ≤ rankScore a) := by
  induction l with
  | nil => simp [insertDesc]
  | cons y ys ih =>
    rcases List.pairwise_cons.mp hl with ⟨hy, hys⟩
    by_cases h : rankScore x < rankScore y
    · simp only [insertDesc, if_pos h]
      refine List.pairwise_cons.mpr ⟨?_, ih hys⟩
      intro b hb
      rcases List.mem_cons.mp ((insertDesc_perm x ys).mem_iff.mp hb) with hbx | hbys
      · exact hbx ▸ le_of_lt h
      · exact hy b hbys
    · simp only [insertDesc, if_neg h]
      refine List.pairwise_cons.mpr ⟨?_, hl⟩
      intro b hb
      rcases List.mem_cons.mp hb with hby | hbys
      · exact hby ▸ le_of_not_lt h
      · exact le_trans (hy b hbys) (le_of_not_lt h)

theorem sortByScoreDesc_sorted (l : List Candidate) :
    (sortByScoreDesc l).Pairwise (fun a b => rankScore b ≤ rankScore a) := by
  induction l with
  | nil => simp [sortByScoreDesc]
  | cons x xs ih => exact insertDesc_sorted x (sortByScoreDesc xs) ih

theorem scoreIs_true_iff (q : ℚ) (c : Candidate) :
    scoreIs q c = true ↔ rankScore c = q := by
  simp [scoreIs]

theorem insertDesc_filter_eq_of_score (x : Candidate) (l : List Candidate)
    (q : ℚ) (hx : rankScore x = q) :
    (insertDesc x l).filter (scoreIs q) = x :: l.filter (scoreIs q) := by
  have hxt : scoreIs q x = true := (scoreIs_true_iff q x).mpr hx
  induction l with
  | nil =>
    simp only [insertDesc]
    rw [List.filter_cons_of_pos hxt]
  | cons y ys ih =>
    by_cases h : rankScore x < rankScore y
    · have hy : ¬ scoreIs q y = true := by
        rw [scoreIs_true_iff]
        intro he
        rw [hx, ← he] at h
        exact absurd h (lt_irrefl _)
      simp only [insertDesc, if_pos h]
      rw [List.filter_cons_of_neg hy, List.filter_cons_of_neg hy]
      exact ih
    · simp only [insertDesc, if_neg h]
      rw [List.filter_cons_of_pos hxt]

theorem insertDesc_filter_eq_of_ne (x : Candidate) (l : List Candidate)
    (q : ℚ) (hx : rankScore x ≠ q) :
    (insertDesc x l).filter (scoreIs q) = l.filter (scoreIs q) := by
  have hxf : ¬ scoreIs q x = true := by
    rw [scoreIs_true_iff]
    exact hx
  induction l with
  | nil =>
    simp only [insertDesc]
    rw [List.filter_cons_of_neg hxf]
  | cons y ys ih =>
    by_cases h : rankScore x < rankScore y
    · simp only [insertDesc, if_pos h]
      by_cases hy : scoreIs q y = true
      · rw [List.filter_cons_of_pos hy, List.filter_cons_of_pos hy, ih]
      · rw [List.filter_cons_of_neg hy, List.filter_cons_of_neg hy, ih]
    · simp only [insertDesc, if_neg h]
      rw [List.filter_cons_of_neg hxf]

theorem sortByScoreDesc_filter_eq (l : List Candidate) (q : ℚ) :
    (sortByScoreDesc l).filter (scoreIs q) = l.filter (scoreIs q) := by
  induction l with
  | nil => rfl
  | cons x xs ih =>
    by_cases hx : rankScore x = q
    · rw [sortByScoreDesc, insertDesc_filter_eq_of_score x _ q hx, ih,
        List.filter_cons_of_pos ((scoreIs_true_iff q x).mpr hx)]
    · rw [sortByScoreDesc, insertDesc_filter_eq_of_ne x _ q hx, ih,
        List.filter_cons_of_neg (fun hc => hx ((scoreIs_true_iff q x).mp hc))]

/-! ### Claim theorems -/

/-- Claim C1: for every app state, `get_candidate_rankings` returns
exactly the candidates that have an assessment (a permutation of the
assessment-present filter of the candidate list, so unassessed
candidates are excluded, not placed last), sorted non-increasing by the
assessment's `overall_score` (the sort key `rankScore`). -/
theorem get_candidate_rankings_sorted_exact (s : AIInterviewerApp) :
    (s.get_candidate_rankings).Pairwise (fun a b => rankScore b ≤ rankScore a) ∧
    List.Perm s.get_candidate_rankings
      (s.candidates.filter (fun c => c.assessment.isSome)) ∧
    ∀ c ∈ s.get_candidate_rankings, c.assessment.isSome := by
  refine ⟨sortByScoreDesc_sorted _, sortByScoreDesc_perm _, ?_⟩
  intro c hc
  have hm := (sortByScoreDesc_perm
    (s.candidates.filter (fun c => c.assessment.isSome))).mem_iff.mp hc
  exact (List.mem_filter.mp hm).2

/-- Claim C6: the ranking sort is stable on ties: for every score `q`,
the candidates of score `q` appear in `get_candidate_rankings` in
exactly the relative order in which they appear in the input candidate
list (restricted to assessed candidates); in particular two assessed
candidates with equal `overall_score` keep their relative input order. -/
theorem get_candidate_rankings_stable (s : AIInterviewerApp) (q : ℚ) :
    (s.get_candidate_rankings).filter (scoreIs q) =
      (s.candidates.filter (fun c => c.assessment.isSome)).filter (scoreIs q) :=
  sortByScoreDesc_filter_eq (s.candidates.filter (fun c => c.assessment.isSome)) q

/-- Claim C7: the recommendation buckets: "Not Recommended" iff
`s < 0.5`, "Consider" iff `0.5 ≤ s < 0.65`, "Recommended" iff
`0.65 ≤ s < 0.8`, "Strongly Recommended" iff `s ≥ 0.8`; in particular
`s = 0.65` maps to "Recommended" and `s = 0.8` to "Strongly
Recommended". -/
theorem recommendationFor_buckets (s : ℚ) :
    ((recommendationFor s = "Not Recommended" ↔ s < 1/2) ∧
     (recommendationFor s = "Consider" ↔ 1/2 ≤ s ∧ s < 13/20) ∧
     (recommendationFor s = "Recommended" ↔ 13/20 ≤ s ∧ s < 4/5) ∧
     (recommendationFor s = "Strongly Recommended" ↔ 4/5 ≤ s)) ∧
    recommendationFor (13/20 : ℚ) = "Recommended" ∧
    recommendationFor (4/5 : ℚ) = "Strongly Recommended" := by
  refine ⟨?_, by norm_num [recommendationFor], by norm_num [recommendationFor]⟩
  unfold recommendationFor
  split_ifs with h1 h2 h3
  · exact ⟨⟨fun _ => h1, fun _ => rfl⟩,
      ⟨fun hh => absurd hh (by decide), fun hh => absurd h1 (not_lt.mpr hh.1)⟩,
      ⟨fun hh => absurd hh (by decide),
        fun hh => absurd h1 (not_lt.mpr (le_trans (by norm_num) hh.1))⟩,
      ⟨fun hh => absurd hh (by decide),
        fun hh => absurd h1 (not_lt.mpr (le_trans (by norm_num) hh))⟩⟩
  · exact ⟨⟨fun hh => absurd hh (by decide), fun hh => absurd hh h1⟩,
      ⟨fun _ => ⟨le_of_not_lt h1, h2⟩, fun _ => rfl⟩,
      ⟨fun hh => absurd hh (by decide), fun hh => absurd h2 (not_lt.mpr hh.1)⟩,
      ⟨fun hh => absurd hh (by decide),
        fun hh => absurd h2 (not_lt.mpr (le_trans (by norm_num) hh))⟩⟩
  · exact ⟨⟨fun hh => absurd hh (by decide), fun hh => absurd hh h1⟩,
      ⟨fun hh => absurd hh (by decide), fun hh => absurd hh.2 h2⟩,
      ⟨fun _ => ⟨le_of_not_lt h2, h3⟩, fun _ => rfl⟩,
      ⟨fun hh => absurd hh (by decide), fun hh => absurd h3 (not_lt.mpr hh)⟩⟩
  · exact ⟨⟨fun hh => absurd hh (by decide), fun hh => absurd hh h1⟩,
      ⟨fun hh => absurd hh (by decide), fun hh => absurd hh.2 h2⟩,
      ⟨fun hh => absurd hh (by decide), fun hh => absurd hh.2 h3⟩,
      ⟨fun _ => le_of_not_lt h3, fun _ => rfl⟩⟩

/-- Claim C4: with no interview in progress, `process_response` fails
(the `(False, "No interview in progress")` result, the spec's
`NoSessionInProgressError`) for every response text, and the state —
hence every recorded response — is unchanged. -/
theorem process_response_no_session (s : AIInterviewerApp) (t : String)
    (h : s.interview_in_progress = false) :
    s.process_response t = (s, .ok (.failure "No interview in progress")) := by
  simp [AIInterviewerApp.process_response, h]

/-- Witness for C4 at a concrete idle state and response text. -/
theorem process_response_no_session_witness :
    idleApp.interview_in_progress = false ∧
    idleApp.process_response "hello" =
      (idleApp, .ok (.failure "No interview in progress")) :=
  ⟨rfl, process_response_no_session idleApp "hello" rfl⟩

/-- Claim C10: when no candidate matches the id, `start_interview`
returns the failure `(False, "Candidate not found")` and the whole app
state is unchanged — no session starts, `current_candidate` is not set,
`interview_in_progress` keeps its value. -/
theorem start_interview_not_found (s : AIInterviewerApp) (cid : String)
    (h : s.candidates.find? (fun c => c.id == cid) = none) :
    s.start_interview cid = (s, .ok (.failure "Candidate not found")) := by
  simp [AIInterviewerApp.start_interview, h]

/-- Witness for C10 at a concrete state and an absent id. -/
theorem start_interview_not_found_witness :
    idleApp.candidates.find? (fun c => c.id == "C9") = none ∧
    idleApp.start_interview "C9" =
      (idleApp, .ok (.failure "Candidate not found")) :=
  ⟨rfl, start_interview_not_found idleApp "C9" rfl⟩

/-- Claim C2: with an interview in progress, submitting the empty
response text fails with `EmptyResponseError` and leaves the state —
in particular the question queue length — unchanged. The statement is
universal in the state `s`, hence in the evaluator embedded in it, so
the outcome never consults the Response Evaluator. -/
theorem process_response_empty_rejected (s : AIInterviewerApp)
    (hflag : s.interview_in_progress = true)
    (hstat : s.interviewer.status = .inProgress) :
    s.process_response "" = (s, .error .EmptyResponseError) ∧
    (s.process_response "").1.interviewer.queue.length =
      s.interviewer.queue.length := by
  have h : s.process_response "" = (s, .error .EmptyResponseError) := by
    simp [AIInterviewerApp.process_response, hflag, InterviewerAgent.process, hstat]
    rw [← hflag]
  exact ⟨h, by rw [h]⟩

/-- Witness for C2 at a concrete mid-interview state. -/
theorem process_response_empty_rejected_witness :
    busyApp.interview_in_progress = true ∧
    busyApp.interviewer.status = .inProgress ∧
    busyApp.process_response "" = (busyApp, .error .EmptyResponseError) ∧
    (busyApp.process_response "").1.interviewer.queue.length =
      busyApp.interviewer.queue.length :=
  ⟨rfl, rfl, (process_response_empty_rejected busyApp rfl rfl).1,
    (process_response_empty_rejected busyApp rfl rfl).2⟩

/-- Claim C9: `start_interview` never raises `EmptySelectionError`
(behavioral focus is always passed as true, so the two focus flags are
never both false), and when the candidate is found the session is
started with `behavioral_focus = true` and `technical_focus` true
exactly when the position is "Software Engineer", "Data Scientist" or
"DevOps Engineer"; the selection is then the corresponding pools. -/
theorem start_interview_focus (s : AIInterviewerApp) (cid : String) :
    (s.start_interview cid).2 ≠ .error .EmptySelectionError ∧
    ∀ c, s.candidates.find? (fun x => x.id == cid) = some c →
      (s.start_interview cid).1.interviewer.behavioral_focus = true ∧
      (s.start_interview cid).1.interviewer.technical_focus =
        decide (c.position ∈
          ["Software Engineer", "Data Scientist", "DevOps Engineer"]) ∧
      (s.start_interview cid).2 = .ok (.success
        (((if c.position ∈ ["Software Engineer", "Data Scientist", "DevOps Engineer"]
            then s.interviewer.technical_pool else []) ++
          s.interviewer.behavioral_pool).head?)) := by
  cases hf : s.candidates.find? (fun x => x.id == cid) with
  | none =>
    constructor
    · simp [AIInterviewerApp.start_interview, hf]
    · intro c hc
      exact Option.noConfusion hc
  | some c0 =>
    have hred : s.start_interview cid =
        ({ s with
            current_candidate := some c0
            interview_in_progress := true
            interviewer := { s.interviewer with
              candidate_id := some cid
              technical_focus := decide (c0.position ∈
                ["Software Engineer", "Data Scientist", "DevOps Engineer"])
              behavioral_focus := true
              queue := (if c0.position ∈
                  ["Software Engineer", "Data Scientist", "DevOps Engineer"]
                then s.interviewer.technical_pool else []) ++
                s.interviewer.behavioral_pool
              technical_responses := []
              behavioral_responses := []
              status := .inProgress } },
         .ok (.success
          (((if c0.position ∈ ["Software Engineer", "Data Scientist", "DevOps Engineer"]
              then s.interviewer.technical_pool else []) ++
            s.interviewer.behavioral_pool).head?))) := by
      simp [AIInterviewerApp.start_interview, hf, InterviewerAgent.start]
    constructor
    · rw [hred]
      intro hcontra
      exact Except.noConfusion hcontra
    · intro c hc
      injection hc with hcc
      subst hcc
      rw [hred]
      exact ⟨rfl, rfl, rfl⟩

/-- Witness for C9 at a concrete state: candidate "C1" is found, has a
technical position, and the session starts with both flags true. -/
theorem start_interview_focus_witness :
    idleApp.candidates.find? (fun x => x.id == "C1") = some candA ∧
    (idleApp.start_interview "C1").1.interviewer.behavioral_focus = true ∧
    (idleApp.start_interview "C1").1.interviewer.technical_focus =
      decide (candA.position ∈
        ["Software Engineer", "Data Scientist", "DevOps Engineer"]) ∧
    (idleApp.start_interview "C1").2 = .ok (.success
      (((if candA.position ∈ ["Software Engineer", "Data Scientist", "DevOps Engineer"]
          then idleApp.interviewer.technical_pool else []) ++
        idleApp.interviewer.behavioral_pool).head?)) :=
  ⟨rfl, (start_interview_focus idleApp "C1").2 candA rfl⟩

/-- Counterexample for claim C3: in the concrete state `busyApp` an
interview is in progress for `candA`, yet `start_interview` for the
different candidate "C2" does not fail with `NoActiveCandidateError`:
it succeeds and replaces `current_candidate` with `candB`. -/
theorem start_interview_conflict_counterexample :
    busyApp.interview_in_progress = true ∧
    busyApp.current_candidate = some candA ∧
    candA.id ≠ "C2" ∧
    (busyApp.start_interview "C2").2 = .ok (.success (some qBeh1)) ∧
    (busyApp.start_interview "C2").2 ≠ .error .NoActiveCandidateError ∧
    (busyApp.start_interview "C2").1.current_candidate = some candB := by
  refine ⟨rfl, rfl, by decide, rfl, ?_, rfl⟩
  intro hcontra
  have heq : (busyApp.start_interview "C2").2 = .ok (.success (some qBeh1)) := rfl
  rw [heq] at hcontra
  exact Except.noConfusion hcontra

/-- Amended claim C3: while an interview is in progress for candidate
A, `start_interview` for a different, existing candidate B does not
fail: `app.py` performs no conflict check, so the call overwrites the
single `current_candidate` slot with B (replacing the in-flight
session) and leaves `interview_in_progress` true; no
`NoActiveCandidateError` is raised. -/
theorem start_interview_overwrites (s : AIInterviewerApp) (cid : String)
    (c : Candidate)
    (_hflag : s.interview_in_progress = true)
    (hfind : s.candidates.find? (fun x => x.id == cid) = some c) :
    (s.start_interview cid).1.current_candidate = some c ∧
    (s.start_interview cid).1.interview_in_progress = true ∧
    (s.start_interview cid).2 ≠ .error .NoActiveCandidateError := by
  have h := (start_interview_focus s cid).2 c hfind
  refine ⟨?_, ?_, ?_⟩
  · simp [AIInterviewerApp.start_interview, hfind, InterviewerAgent.start]
  · simp [AIInterviewerApp.start_interview, hfind, InterviewerAgent.start]
  · intro hcontra
    rw [h.2.2] at hcontra
    exact Except.noConfusion hcontra

/-- Witness for the amended C3 at the concrete conflicting state. -/
theorem start_interview_overwrites_witness :
    busyApp.interview_in_progress = true ∧
    busyApp.candidates.find? (fun x => x.id == "C2") = some candB ∧
    (busyApp.start_interview "C2").1.current_candidate = some candB ∧
    (busyApp.start_interview "C2").1.interview_in_progress = true ∧
    (busyApp.start_interview "C2").2 ≠ .error .NoActiveCandidateError :=
  ⟨rfl, rfl, (start_interview_overwrites busyApp "C2" candB rfl rfl).1,
    (start_interview_overwrites busyApp "C2" candB rfl rfl).2.1,
    (start_interview_overwrites busyApp "C2" candB rfl rfl).2.2⟩

theorem updateFirst_append (l₁ l₂ : List Candidate) (c : Candidate)
    (cid : String) (b : AssessmentBundle)
    (hfirst : ∀ x ∈ l₁, (x.id == cid) = false)
    (hcid : (c.id == cid) = true) :
    updateFirst (l₁ ++ c :: l₂) cid b =
      l₁ ++ ({ c with
          status := "Interviewed"
          assessment := some b.assessment
          interview_data :=
            some (b.technical_responses, b.behavioral_responses) } :: l₂) := by
  induction l₁ with
  | nil => simp [updateFirst, hcid]
  | cons x xs ih =>
    have hx : (x.id == cid) = false := hfirst x (List.mem_cons_self x xs)
    simp only [List.cons_append, updateFirst, hx]
    rw [if_neg (by simp [hx])]
    exact congrArg (List.cons x)
      (ih (fun y hy => hfirst y (List.mem_cons_of_mem x hy)))

/-- Claim C5: when `process_response` succeeds and reports no next
question, the interview transitions out of in-progress and, in the same
step, the first candidate record matching the current candidate's id
changes status from "Pending" to "Interviewed" and receives the
computed Assessment (the aggregate of the recorded responses) together
with the interview data; and whenever a next question remains, the
candidate list — in particular every assessment slot — is untouched. -/
theorem process_response_completion (s : AIInterviewerApp) (t : String)
    (cur c : Candidate) (l₁ l₂ : List Candidate) (res : AgentResult)
    (hflag : s.interview_in_progress = true)
    (hcur : s.current_candidate = some cur)
    (hsplit : s.candidates = l₁ ++ c :: l₂)
    (hfirst : ∀ x ∈ l₁, (x.id == cur.id) = false)
    (hcid : (c.id == cur.id) = true)
    (_hpend : c.status = "Pending")
    (hres : (s.process_response t).2 = .ok (.success res)) :
    (res.next_question = none →
      (s.process_response t).1.interview_in_progress = false ∧
      (s.process_response t).1.candidates =
        l₁ ++ ({ c with
            status := "Interviewed"
            assessment := some (aggregate
              ((s.interviewer.process t).1).technical_responses
              ((s.interviewer.process t).1).behavioral_responses)
            interview_data := some (
              ((s.interviewer.process t).1).technical_responses,
              ((s.interviewer.process t).1).behavioral_responses) } :: l₂)) ∧
    (res.next_question ≠ none →
      (s.process_response t).1.candidates = s.candidates) := by
  rcases hp : s.interviewer.process t with ⟨ag', r⟩
  cases r with
  | error e =>
    have herr : (s.process_response t).2 = .error e := by
      simp [AIInterviewerApp.process_response, hflag, hp]
    rw [herr] at hres
    exact Except.noConfusion hres
  | ok result =>
    cases hnq : result.next_question with
    | some q =>
      have hstate : s.process_response t =
          ({ s with interviewer := ag' }, .ok (.success result)) := by
        simp [AIInterviewerApp.process_response, hflag, hp, hnq]
      constructor
      · intro hnone
        rw [hstate] at hres
        injection hres with h1
        injection h1 with h2
        rw [h2] at hnq
        rw [hnone] at hnq
        exact Option.noConfusion hnq
      · intro _
        rw [hstate]
    | none =>
      have hstate : s.process_response t =
          (AIInterviewerApp.update_candidate_assessment
            { s with interviewer := ag', interview_in_progress := false },
           .ok (.success result)) := by
        simp [AIInterviewerApp.process_response, hflag, hp, hnq]
      constructor
      · intro _
        constructor
        · rw [hstate]
          simp [AIInterviewerApp.update_candidate_assessment, hcur]
        · rw [hstate]
          simp only [AIInterviewerApp.update_candidate_assessment, hcur]
          rw [hsplit, updateFirst_append l₁ l₂ c cur.id
            ag'.get_candidate_assessment hfirst hcid]
          rfl
      · intro hne
        rw [hstate] at hres
        injection hres with h1
        injection h1 with h2
        rw [h2] at hnq
        exact absurd hnq hne

/-- Witness for C5 at a concrete state: one behavioral question left,
a non-empty answer completes the interview, flips the flag off and
rewrites exactly the current candidate's record. -/
theorem process_response_completion_witness :
    busyApp.interview_in_progress = true ∧
    busyApp.current_candidate = some candA ∧
    busyApp.candidates = [] ++ candA :: [candB] ∧
    candA.status = "Pending" ∧
    (busyApp.process_response "Good answer").1.interview_in_progress = false ∧
    (busyApp.process_response "Good answer").1.candidates =
      [] ++ ({ candA with
          status := "Interviewed"
          assessment := some (aggregate
            ((busyApp.interviewer.process "Good answer").1).technical_responses
            ((busyApp.interviewer.process "Good answer").1).behavioral_responses)
          interview_data := some (
            ((busyApp.interviewer.process "Good answer").1).technical_responses,
            ((busyApp.interviewer.process "Good answer").1).behavioral_responses) }
        :: [candB]) := by
  have h := (process_response_completion busyApp "Good answer" candA candA
    [] [candB]
    ⟨⟨qBeh1.text, qBeh1.category, "Good answer", 7/10, "ok",
      some ⟨"POSITIVE", 9/10⟩⟩, none, 0⟩
    rfl rfl rfl (fun x hx => absurd hx (List.not_mem_nil x)) rfl rfl rfl).1 rfl
  exact ⟨rfl, rfl, rfl, rfl, h.1, h.2⟩

/-! ### Decimal id rendering: injectivity -/

theorem natDecChars_lt {n : Nat} (h : n < 10) :
    natDecChars n = [Nat.digitChar n] := by
  rw [natDecChars]
  exact if_pos h

theorem natDecChars_ge {n : Nat} (h : ¬ n < 10) :
    natDecChars n = natDecChars (n / 10) ++ [Nat.digitChar (n % 10)] := by
  rw [natDecChars]
  exact if_neg h

theorem natDecChars_ne_nil (n : Nat) : natDecChars n ≠ [] := by
  by_cases h : n < 10
  · rw [natDecChars_lt h]
    simp
  · rw [natDecChars_ge h]
    simp

theorem digitChar_inj_lt :
    ∀ a < 10, ∀ b < 10, Nat.digitChar a = Nat.digitChar b → a = b := by
  decide

theorem natDecChars_inj :
    ∀ m n : Nat, natDecChars m = natDecChars n → m = n := by
  intro m
  induction m using Nat.strong_induction_on with
  | _ m ih =>
    intro n h
    by_cases hm : m < 10 <;> by_cases hn : n < 10
    · rw [natDecChars_lt hm, natDecChars_lt hn] at h
      injection h with h1 _
      exact digitChar_inj_lt m hm n hn h1
    · exfalso
      rw [natDecChars_lt hm, natDecChars_ge hn] at h
      have hl := congrArg List.length h
      simp at hl
      exact natDecChars_ne_nil (n / 10) hl
    · exfalso
      rw [natDecChars_ge hm, natDecChars_lt hn] at h
      have hl := congrArg List.length h
      simp at hl
      exact natDecChars_ne_nil (m / 10) hl
    · rw [natDecChars_ge hm, natDecChars_ge hn] at h
      obtain ⟨h1, h2⟩ := List.append_inj' h rfl
      have hdiv : m / 10 = n / 10 :=
        ih (m / 10) (Nat.div_lt_self (by omega) (by norm_num)) (n / 10) h1
      injection h2 with h2' _
      have hmod : m % 10 = n % 10 :=
        digitChar_inj_lt (m % 10) (Nat.mod_lt _ (by norm_num))
          (n % 10) (Nat.mod_lt _ (by norm_num)) h2'
      omega

theorem candidateId_inj : ∀ a b : Nat, candidateId a = candidateId b → a = b := by
  intro a b h
  have hd : 'C' :: natDecChars a = 'C' :: natDecChars b := congrArg String.data h
  injection hd with _ hd'
  exact natDecChars_inj a b hd'

theorem add_candidate_length (s : AIInterviewerApp) (info : CandidateInfo)
    (date : String) :
    ((s.add_candidate info date).2).candidates.length = s.candidates.length + 1 := by
  simp [AIInterviewerApp.add_candidate]

theorem addCandidates_ids (s : AIInterviewerApp)
    (jobs : List (CandidateInfo × String)) :
    (addCandidates s jobs).1 =
      (List.range jobs.length).map
        (fun k => candidateId (s.candidates.length + 1 + k)) := by
  induction jobs generalizing s with
  | nil => rfl
  | cons j rest ih =>
    obtain ⟨info, date⟩ := j
    simp only [addCandidates]
    rw [ih ((s.add_candidate info date).2), add_candidate_length]
    rw [List.length_cons, List.range_succ_eq_map, List.map_cons, List.map_map]
    refine congrArg₂ List.cons (congrArg candidateId (by omega)) ?_
    refine List.map_congr_left ?_
    intro k _
    exact congrArg candidateId (by omega)

/-- Claim C8: over any sequence of `add_candidate` calls from any
starting state, the assigned ids are `f"C{n+1}", f"C{n+2}", …` (for
`n` the initial candidate count): pairwise distinct, and monotonically
increasing in the id order — whenever an earlier-assigned id renders
number `i` and a later one renders number `j`, then `i < j`. -/
theorem add_candidate_ids_unique_monotone (s : AIInterviewerApp)
    (jobs : List (CandidateInfo × String)) :
    (addCandidates s jobs).1 =
      (List.range jobs.length).map
        (fun k => candidateId (s.candidates.length + 1 + k)) ∧
    (addCandidates s jobs).1.Pairwise (fun a b => a ≠ b) ∧
    (addCandidates s jobs).1.Pairwise (fun a b =>
      ∀ i j : Nat, a = candidateId i → b = candidateId j → i < j) := by
  refine ⟨addCandidates_ids s jobs, ?_, ?_⟩ <;> rw [addCandidates_ids s jobs]
  · refine List.Pairwise.map _ ?_ (List.pairwise_lt_range jobs.length)
    intro a b hab heq
    have := candidateId_inj _ _ heq
    omega
  · refine List.Pairwise.map _ ?_ (List.pairwise_lt_range jobs.length)
    intro a b hab i j hi hj
    have hia := candidateId_inj _ _ hi.symm
    have hjb := candidateId_inj _ _ hj.symm
    omega

/-- Witness for C1 at a concrete state: the two tied high scorers and
the low scorer are ranked, the unassessed `candA` is excluded. -/
theorem get_candidate_rankings_sorted_exact_witness :
    rankedApp.get_candidate_rankings = [candX, candZ, candY] ∧
    (rankedApp.get_candidate_rankings).Pairwise
      (fun a b => rankScore b ≤ rankScore a) ∧
    List.Perm rankedApp.get_candidate_rankings
      (rankedApp.candidates.filter (fun c => c.assessment.isSome)) :=
  ⟨rfl, (get_candidate_rankings_sorted_exact rankedApp).1,
    (get_candidate_rankings_sorted_exact rankedApp).2.1⟩

/-- Witness for C6 at a concrete state: the tied candidates `candX`
and `candZ` (input order X before Z) appear in the ranking in the same
relative order. -/
theorem get_candidate_rankings_stable_witness :
    (rankedApp.get_candidate_rankings).filter (scoreIs 1) =
      (rankedApp.candidates.filter
        (fun c => c.assessment.isSome)).filter (scoreIs 1) ∧
    (rankedApp.get_candidate_rankings).filter (scoreIs 1) = [candX, candZ] :=
  ⟨get_candidate_rankings_stable rankedApp 1, rfl⟩

/-- Witness for C7: the two boundary scores evaluated concretely. -/
theorem recommendationFor_buckets_witness :
    recommendationFor (13/20 : ℚ) = "Recommended" ∧
    recommendationFor (4/5 : ℚ) = "Strongly Recommended" :=
  ⟨(recommendationFor_buckets 0).2.1, (recommendationFor_buckets 0).2.2⟩

/-- Witness for C8: two `add_candidate` calls on the two-candidate
state assign the distinct, increasing ids "C3" then "C4". -/
theorem add_candidate_ids_unique_monotone_witness :
    (addCandidates idleApp [(infoP, "2026-10-03"), (infoQ, "2026-10-04")]).1.Pairwise
      (fun a b => a ≠ b) ∧
    (addCandidates idleApp [(infoP, "2026-10-03"), (infoQ, "2026-10-04")]).1 =
      ["C3", "C4"] := by
  have h := add_candidate_ids_unique_monotone idleApp
    [(infoP, "2026-10-03"), (infoQ, "2026-10-04")]
  refine ⟨h.2.1, ?_⟩
  rw [h.1]
  have h3 : candidateId 3 = "C3" := by
    rw [candidateId, natDecChars_lt (by norm_num)]
    rfl
  have h4 : candidateId 4 = "C4" := by
    rw [candidateId, natDecChars_lt (by norm_num)]
    rfl
  show [candidateId 3, candidateId 4] = ["C3", "C4"]
  rw [h3, h4]

end Sunrisers
